import Mathlib

/-!
Verification development for the SluggoAPI ticket subsystem.

The definitions below are a shallow embedding of the Python source:

* `Ticket.save` in `api/models/ticket.py` (lines 66-81): validates owner and
  team, then performs `team.ticket_head += 1; team.save();
  self.ticket_number = team.ticket_head; super().save()`.
* `Ticket.retrieve_by_user` in `api/models/ticket.py` (lines 57-61).
* `TicketViewSet._add_subticket` in `api/old_views/ticket_view.py`
  (lines 152-176), whose tree operations (`add_child`, `move`, `is_root`)
  come from the django-treebeard materialized-path tree used by
  `TicketNode`; the tree is embedded as an association list from ticket id
  to its self-inclusive root-first path, exactly the information treebeard
  maintains.
* `TicketSerializer` in `api/serializers.py`: `ticket_number` is a
  `ReadOnlyField` (line 195), so client-supplied values never reach
  `validated_data`; `update` (lines 247-258) reconciles tags through
  `TicketTag.delete_difference`.

Machine integers are modelled as `Nat`: the counters only grow from 0 and
Python integers are unbounded.
-/

namespace Sluggo

/-- Error raised by `Ticket.save` (`raise ValueError("missing owner")` /
`raise ValueError("missing team")` in `api/models/ticket.py`). -/
inductive SaveErr where
  | missingOwner : SaveErr
  | missingTeam : SaveErr
deriving Repr, DecidableEq

/-- The fields of a `Ticket` row relevant to the claims
(`api/models/ticket.py`).  `pk` is Django's primary key, `none` while the
object has not been persisted.  Foreign keys are modelled as optional ids. -/
structure TicketObj where
  pk : Option Nat
  owner : Option Nat
  assigned_user : Option Nat
  team : Option Nat
  title : String
  description : String
  ticket_number : Nat
  deactivated : Option Nat
deriving Repr, DecidableEq

/-- The persisted state of one team's slice of the database: the team row's
`ticket_head` counter (`api/models/team.py`, default 0), the next primary
key the database will hand out, and the persisted ticket rows. -/
structure DBState where
  ticket_head : Nat
  nextPk : Nat
  rows : List TicketObj
deriving Repr, DecidableEq

/-- `Ticket.save` (`api/models/ticket.py` lines 66-81): check owner, check
team, increment `team.ticket_head`, persist the team, overwrite
`self.ticket_number` with the new head, then `super().save()` (INSERT for a
fresh object, UPDATE of the row with the same pk otherwise).  Returns the
new database state and the saved ticket object. -/
def ticketSave (db : DBState) (t : TicketObj) : Except SaveErr (DBState × TicketObj) :=
  match t.owner with
  | none => .error .missingOwner
  | some _ =>
    match t.team with
    | none => .error .missingTeam
    | some _ =>
      let head := db.ticket_head + 1
      let t1 := { t with ticket_number := head }
      match t1.pk with
      | none =>
        let t2 := { t1 with pk := some db.nextPk }
        .ok ({ ticket_head := head, nextPk := db.nextPk + 1,
               rows := db.rows ++ [t2] }, t2)
      | some k =>
        .ok ({ ticket_head := head, nextPk := db.nextPk,
               rows := db.rows.map (fun r => if r.pk = some k then t1 else r) }, t1)

/-- The database state the caller observes after `Ticket.save`: a raised
`ValueError` aborts before any write, so on error the state is unchanged. -/
def runTicketSave (db : DBState) (t : TicketObj) : DBState :=
  match ticketSave db t with
  | .ok (db', _) => db'
  | .error _ => db

/-- The `delete` action of `TicketViewSet`
(`api/old_views/ticket_view.py` lines 137-149): sets
`instance.deactivated = timezone.now()` and calls `instance.save()`,
which re-runs `Ticket.save`. -/
def deleteTicket (db : DBState) (t : TicketObj) (now : Nat) :
    Except SaveErr (DBState × TicketObj) :=
  ticketSave db { t with deactivated := some now }

/-- `Ticket.retrieve_by_user` (`api/models/ticket.py` lines 57-61):
`filter(Q(team=team), Q(deactivated=None), Q(owner=user) | Q(assigned_user=user))`. -/
def retrieve_by_user (rows : List TicketObj) (user team : Nat) : List TicketObj :=
  rows.filter (fun t =>
    t.team == some team && t.deactivated == none &&
      (t.owner == some user || t.assigned_user == some user))

/-- The writable payload of a ticket request as seen by `TicketSerializer`
(`api/serializers.py`).  The client may include a `ticket_number` field,
but the serializer declares `ticket_number = serializers.ReadOnlyField()`
(line 195), so it never enters `validated_data`. -/
structure ClientRequest where
  title : String
  description : String
  assigned_user : Option Nat
  ticket_number : Option Nat
deriving Repr, DecidableEq

/-- The model instance `serializer.save(owner=self.request.user)` builds in
`create_record` (`api/old_views/ticket_view.py` lines 52-70): the writable
fields of the request plus the injected owner and team.  Read-only fields
(`ticket_number` among them) are absent from `validated_data`, so the fresh
object carries the `IntegerField` default rather than anything
client-supplied; `Ticket.save` then overwrites it. -/
def buildTicket (owner team : Nat) (r : ClientRequest) : TicketObj :=
  { pk := none
    owner := some owner
    assigned_user := r.assigned_user
    team := some team
    title := r.title
    description := r.description
    ticket_number := 0
    deactivated := none }

/-- The `create_record` pipeline for a single team, up to persistence:
deserialize the writable fields and run `Ticket.save`. -/
def createRecord (db : DBState) (owner team : Nat) (r : ClientRequest) :
    Except SaveErr (DBState × TicketObj) :=
  ticketSave db (buildTicket owner team r)

/-!  Interleaving model for two concurrent `Ticket.save` calls against the
same team.  Each Django request works on its own in-memory `Team` object:
loading the row reads `ticket_head` into request-local memory, and
`team.save()` writes back the locally incremented value, at which point the
new `ticket_number` is also fixed.  `team.ticket_head += 1; team.save()` is
therefore a read step followed by a separately observable write step. -/

/-- Shared and request-local state of two in-flight `Ticket.save` calls for
one team: the persisted `ticket_head`, each request's in-memory copy of it,
and the `ticket_number` each request has persisted (if it reached that
point). -/
structure RaceState where
  head : Nat
  local1 : Option Nat
  local2 : Option Nat
  num1 : Option Nat
  num2 : Option Nat
deriving Repr, DecidableEq

/-- One atomic storage access of either request: `readN` loads the team row
into request N's memory; `writeN` performs `team.ticket_head += 1;
team.save()` on the loaded copy and fixes `self.ticket_number` to the value
written.  A write without a prior read does nothing (the request has not
started). -/
inductive RaceStep where
  | read1 : RaceStep
  | read2 : RaceStep
  | write1 : RaceStep
  | write2 : RaceStep
deriving Repr, DecidableEq

/-- Apply one step of the interleaving. -/
def raceStep (s : RaceState) : RaceStep → RaceState
  | .read1 => { s with local1 := some s.head }
  | .read2 => { s with local2 := some s.head }
  | .write1 =>
    match s.local1 with
    | some v => { s with head := v + 1, num1 := some (v + 1) }
    | none => s
  | .write2 =>
    match s.local2 with
    | some v => { s with head := v + 1, num2 := some (v + 1) }
    | none => s

/-- Run a schedule of interleaved steps. -/
def raceRun (sched : List RaceStep) (s : RaceState) : RaceState :=
  sched.foldl raceStep s

/-- Initial state: a fresh team (`ticket_head = 0`), neither request
started. -/
def raceInit : RaceState :=
  { head := 0, local1 := none, local2 := none, num1 := none, num2 := none }

/-!  The ticket tree.  `TicketNode` is a django-treebeard materialized-path
node (`MP_Node`) carrying a 1:1 reference to a `Ticket`
(imported in `api/old_views/ticket_view.py` and `api/tests/event_test.py`).
A treebeard node stores its path from the root; we embed the forest as an
association list from ticket id to the node's self-inclusive, root-first
path of ticket ids, which carries exactly the structure treebeard's path
column encodes.  `is_root()` is depth 1 (a one-element path);
`move(target, pos="last-child")` raises `InvalidMoveToDescendant` when the
moved node's old path is a prefix of the new one (the target lies in the
moved node's own subtree), and otherwise rewrites the path of every node of
the moved subtree. -/

/-- A forest of ticket nodes: each entry is a ticket id together with the
node's self-inclusive root-first path. -/
abbrev Forest := List (Nat × List Nat)

/-- Look up the node path of a ticket (`TicketNode.objects.filter(ticket=...)`). -/
def lookupPath : Forest → Nat → Option (List Nat)
  | [], _ => none
  | (j, p) :: rest, i => if i = j then some p else lookupPath rest i

/-- The ticket ids carrying a node. -/
def forestKeys (f : Forest) : List Nat := f.map Prod.fst

/-- `ancestors_of`: the strict ancestors of a ticket, root first (the
node's path without the node itself); a ticket without a node has none. -/
def ancestorsOf (f : Forest) (t : Nat) : List Nat :=
  match lookupPath f t with
  | some q => q.dropLast
  | none => []

/-- Well-formedness of the forest, the invariant treebeard maintains for
its path encoding: node ids are unique, every path is nonempty, ends with
the node's own id, repeats no id, and each of its steps is the path of the
node it names. -/
def WF (f : Forest) : Prop :=
  (forestKeys f).Nodup ∧
    ∀ n ∈ f, n.2 ≠ [] ∧ n.2.getLast? = some n.1 ∧ n.2.Nodup ∧
      ∀ k < n.2.length, lookupPath f (n.2.getD k 0) = some (n.2.take (k + 1))

instance : DecidablePred WF := fun f => by unfold WF; infer_instance

/-- Error outcomes of `TicketViewSet._add_subticket`
(`api/old_views/ticket_view.py` lines 152-176). `parentMissing` is the
`get_object_or_404` on the parent node; `alreadyAttached` is the 400
response "ticket already part of a graph"; `invalidMoveToDescendant` is
treebeard's cycle error, caught and surfaced as the 400 response
"invalid tree operation". -/
inductive TreeErr where
  | parentMissing : TreeErr
  | alreadyAttached : TreeErr
  | invalidMoveToDescendant : TreeErr
deriving Repr, DecidableEq

/-- The path rewriting treebeard's `move` applies to one node when a
depth-1 (root) node with path `cp` becomes the last child of a node with
path `pp`: nodes of the moved subtree (their paths start at the moved
root's one step) receive the new path `pp ++ [child]` followed by the rest
of their old path; all other nodes keep their paths. -/
def movePath (cp pp : List Nat) (child : Nat) (q : List Nat) : List Nat :=
  if q.head? = cp.head? then (pp ++ [child]) ++ q.drop 1 else q

/-- Treebeard's `move(target=parent_node, pos="last-child")` applied to a
depth-1 (root) node with path `cp`, the only move `_add_subticket`
performs: every node's path is rewritten by `movePath`. -/
def moveRootUnder (f : Forest) (cp pp : List Nat) (child : Nat) : Forest :=
  f.map (fun n => (n.1, movePath cp pp child n.2))

/-- `TicketViewSet._add_subticket(parent, child)`
(`api/old_views/ticket_view.py` lines 152-176): 404 when the parent has no
node; if the child has a node, a root child is moved under the parent
(treebeard raising `InvalidMoveToDescendant` when the child's one-step old
path would start the new path, i.e. the parent sits in the child's own
tree) and a non-root child is rejected with "ticket already part of a
graph"; a child without a node becomes a new last child of the parent.
No team comparison appears anywhere in the body. -/
def addSubticket (f : Forest) (parent child : Nat) : Except TreeErr Forest :=
  match lookupPath f parent with
  | none => .error .parentMissing
  | some pp =>
    match lookupPath f child with
    | some cp =>
      if cp.length = 1 then
        if (pp ++ [child]).head? = cp.head? then
          .error .invalidMoveToDescendant
        else
          .ok (moveRootUnder f cp pp child)
      else
        .error .alreadyAttached
    | none => .ok (f ++ [(child, pp ++ [child])])

/-- A ticket as `_add_subticket` receives it: the view resolves full
`Ticket` objects (each belonging to a team) and passes them in; the tree
code only ever consults their nodes. -/
structure TicketLite where
  id : Nat
  team : Nat
deriving Repr, DecidableEq

/-- `_add_subticket` called on resolved ticket objects, as the
`add_subticket` / `add_as_subticket` actions do after their permission
checks. -/
def addSubticketView (f : Forest) (parent child : TicketLite) :
    Except TreeErr Forest :=
  addSubticket f parent.id child.id

/-- The tree mutations the views perform: `TicketNode.add_root` /
`parent_node.add_child` on a freshly created ticket in `create_record`
(lines 81-87), and `_add_subticket` for the subticket actions. -/
inductive TreeOp where
  | addRoot : Nat → TreeOp
  | attach : Nat → Nat → TreeOp
deriving Repr, DecidableEq

/-- Apply one view-level tree mutation; a failed call (an error response)
leaves the persisted tree as it was.  `addRoot` only fires for a ticket
without a node, as in `create_record`, where the ticket was created in the
same request. -/
def applyTreeOp (f : Forest) : TreeOp → Forest
  | .addRoot t =>
    match lookupPath f t with
    | none => f ++ [(t, [t])]
    | some _ => f
  | .attach p c =>
    match addSubticket f p c with
    | .ok f' => f'
    | .error _ => f

/-- Run a sequence of view-level tree mutations. -/
def runTreeOps (f : Forest) (ops : List TreeOp) : Forest :=
  ops.foldl applyTreeOp f

/-!  Tag reconciliation on update. -/

/-- A `TicketTag` association row (`api/serializers.py` `TicketTagSerializer`;
spec §3): ticket, tag and the row's `created` timestamp. -/
structure TicketTagRec where
  ticket : Nat
  tag : Nat
  created : Nat
deriving Repr, DecidableEq

/-- Modelled from the spec: `TicketTag.delete_difference(tag_list, instance)`,
called by `TicketSerializer.update` (`api/serializers.py` line 256); the
`TicketTag` model defining it is not among the provided sources.  Spec §4.3
`reconcile`: "computes the symmetric difference against currently-attached
tags; detaches associations for tags no longer desired, attaches
associations for newly desired tags", as "a set-difference operation, not a
delete-all-then-reinsert, so that association metadata (e.g. created
timestamp) for tags that remain attached is preserved."  Rows of other
tickets are untouched; new rows are stamped with the current time. -/
def delete_difference (assocs : List TicketTagRec) (ticket : Nat)
    (desired : List Nat) (now : Nat) : List TicketTagRec :=
  let kept := assocs.filter (fun a => a.ticket != ticket || desired.contains a.tag)
  let fresh := desired.filter
    (fun g => !(assocs.any (fun a => a.ticket == ticket && a.tag == g)))
  kept ++ fresh.map (fun g => { ticket := ticket, tag := g, created := now })

/-- The tags currently attached to a ticket, in association-row order. -/
def attachedTags (assocs : List TicketTagRec) (ticket : Nat) : List Nat :=
  (assocs.filter (fun a => a.ticket == ticket)).map (fun a => a.tag)

/-!  Concrete fixtures used by the witnesses. -/

/-- A freshly created team's database slice: `ticket_head` starts at 0. -/
def db0 : DBState := { ticket_head := 0, nextPk := 1, rows := [] }

/-- A fresh, not yet persisted ticket with owner and team set. -/
def sampleTicket : TicketObj :=
  { pk := none, owner := some 1, assigned_user := none, team := some 1,
    title := "A", description := "", ticket_number := 0, deactivated := none }

/-- `sampleTicket` as persisted by its first save: numbered 1, pk 1. -/
def sampleSaved : TicketObj :=
  { pk := some 1, owner := some 1, assigned_user := none, team := some 1,
    title := "A", description := "", ticket_number := 1, deactivated := none }

/-- The database after the first save of `sampleTicket` into `db0`. -/
def dbAfterFirst : DBState :=
  { ticket_head := 1, nextPk := 2, rows := [sampleSaved] }

/-- A ticket whose owner foreign key is null. -/
def ownerlessTicket : TicketObj :=
  { sampleTicket with owner := none }



theorem lookupPath_append_some {f : Forest} {i : Nat} {q : List Nat} (g : Forest)
    (h : lookupPath f i = some q) : lookupPath (f ++ g) i = some q := by
  induction f with
  | nil => simp [lookupPath] at h
  | cons n rest ih =>
    rcases n with ⟨j, p⟩
    rw [List.cons_append]
    by_cases hij : i = j <;> simp [lookupPath, hij] at h ⊢
    · exact h
    · exact ih h

theorem lookupPath_append_none {f : Forest} {i : Nat} (g : Forest)
    (h : lookupPath f i = none) : lookupPath (f ++ g) i = lookupPath g i := by
  induction f with
  | nil => simp
  | cons n rest ih =>
    rcases n with ⟨j, p⟩
    rw [List.cons_append]
    by_cases hij : i = j <;> simp [lookupPath, hij] at h ⊢
    exact ih h

theorem lookupPath_mem {f : Forest} {i : Nat} {q : List Nat}
    (h : lookupPath f i = some q) : (i, q) ∈ f := by
  induction f with
  | nil => simp [lookupPath] at h
  | cons n rest ih =>
    rcases n with ⟨j, p⟩
    by_cases hij : i = j <;> simp [lookupPath, hij] at h <;> simp
    · exact Or.inl ⟨hij, h.symm⟩
    · exact Or.inr (ih h)

theorem lookupPath_eq_none {f : Forest} {i : Nat} :
    lookupPath f i = none ↔ i ∉ forestKeys f := by
  induction f with
  | nil => simp [lookupPath, forestKeys]
  | cons n rest ih =>
    rcases n with ⟨j, p⟩
    by_cases hij : i = j <;> simp [lookupPath, hij, forestKeys, ih] at *

theorem lookupPath_map (T : List Nat → List Nat) (f : Forest) (i : Nat) :
    lookupPath (f.map fun n => (n.1, T n.2)) i = (lookupPath f i).map T := by
  induction f with
  | nil => simp [lookupPath]
  | cons n rest ih =>
    rcases n with ⟨j, p⟩
    by_cases hij : i = j <;> simp [lookupPath, hij, ih]

theorem forestKeys_map (T : List Nat → List Nat) (f : Forest) :
    forestKeys (f.map fun n => (n.1, T n.2)) = forestKeys f := by
  simp [forestKeys]

theorem forestKeys_append (f g : Forest) :
    forestKeys (f ++ g) = forestKeys f ++ forestKeys g := by
  simp [forestKeys]

theorem head?_take_succ (q : List Nat) (k : Nat) : (q.take (k + 1)).head? = q.head? := by
  cases q <;> simp

theorem WF_node {f : Forest} (hwf : WF f) {i : Nat} {q : List Nat}
    (h : lookupPath f i = some q) :
    q ≠ [] ∧ q.getLast? = some i ∧ q.Nodup ∧
      ∀ k < q.length, lookupPath f (q.getD k 0) = some (q.take (k + 1)) :=
  hwf.2 (i, q) (lookupPath_mem h)

theorem WF_elem {f : Forest} (hwf : WF f) {i : Nat} {q : List Nat}
    (h : (i, q) ∈ f) {x : Nat} (hx : x ∈ q) :
    ∃ r, lookupPath f x = some r ∧ r.head? = q.head? := by
  obtain ⟨-, -, -, hcl⟩ := hwf.2 (i, q) h
  obtain ⟨⟨k, hk⟩, hg⟩ := List.mem_iff_get.mp hx
  refine ⟨q.take (k + 1), ?_, head?_take_succ q k⟩
  have h2 : q.getD k 0 = x := by
    rw [List.getD_eq_getElem q 0 hk, ← hg]
    simp
  rw [← h2]
  exact hcl k hk

theorem WF_root_path {f : Forest} (hwf : WF f) {c : Nat} {cp : List Nat}
    (h : lookupPath f c = some cp) (hlen : cp.length = 1) : cp = [c] := by
  obtain ⟨hne, hlast, -, -⟩ := WF_node hwf h
  cases cp with
  | nil => simp at hlen
  | cons a l =>
    cases l with
    | nil => simp at hlast; simp [hlast]
    | cons b m => simp at hlen

theorem WF_self_not_ancestor {f : Forest} (hwf : WF f) {i : Nat} {q : List Nat}
    (h : lookupPath f i = some q) : i ∉ q.dropLast := by
  obtain ⟨hne, hlast, hnd, -⟩ := WF_node hwf h
  have hg : q.getLast hne = i := by
    rw [List.getLast?_eq_getLast q hne] at hlast
    exact Option.some.inj hlast
  have hq : q.dropLast ++ [i] = q := by
    rw [← hg]
    exact List.dropLast_append_getLast hne
  intro hmem
  rw [← hq, List.nodup_append] at hnd
  exact hnd.2.2 hmem (List.mem_singleton_self i)

theorem WF_snoc {f : Forest} (hwf : WF f) {c : Nat} (hc : lookupPath f c = none)
    (pp : List Nat) (hnd : pp.Nodup) (hcp : c ∉ pp)
    (hcl : ∀ k < pp.length, lookupPath f (pp.getD k 0) = some (pp.take (k + 1))) :
    WF (f ++ [(c, pp ++ [c])]) := by
  have hkc : c ∉ forestKeys f := lookupPath_eq_none.mp hc
  constructor
  · rw [forestKeys_append, List.nodup_append]
    refine ⟨hwf.1, by simp [forestKeys], ?_⟩
    intro x hx hx2
    simp [forestKeys] at hx2
    subst hx2
    exact hkc hx
  · intro n hn
    rcases List.mem_append.mp hn with hn | hn
    · obtain ⟨h1, h2, h3, h4⟩ := hwf.2 n hn
      exact ⟨h1, h2, h3, fun k hk => lookupPath_append_some _ (h4 k hk)⟩
    · simp only [List.mem_singleton] at hn
      subst hn
      refine ⟨by simp, by simp, ?_, ?_⟩
      · rw [List.nodup_append]
        refine ⟨hnd, List.nodup_singleton c, ?_⟩
        intro x hx hx2
        simp at hx2
        subst hx2
        exact hcp hx
      · intro k hk
        rcases Nat.lt_or_ge k pp.length with hlt | hge
        · rw [List.getD_append _ _ _ _ hlt,
            List.take_append_of_le_length (by omega)]
          exact lookupPath_append_some _ (hcl k hlt)
        · have hk2 : k = pp.length := by
            simp at hk
            omega
          subst hk2
          rw [List.getD_append_right _ _ _ _ le_rfl, Nat.sub_self]
          simp only [List.getD, List.get?, Option.getD_some]
          rw [lookupPath_append_none _ hc]
          simp only [lookupPath, if_pos]
          rw [List.take_of_length_le (by simp)]

theorem movePath_c_headed {pp q : List Nat} {c : Nat} (h : q.head? = some c) :
    movePath [c] pp c q = pp ++ q := by
  cases q with
  | nil => simp at h
  | cons a t =>
    simp at h
    subst h
    simp [movePath, List.append_assoc]

theorem movePath_not_headed {pp q : List Nat} {c : Nat} (h : q.head? ≠ some c) :
    movePath [c] pp c q = q := by
  simp [movePath, h]

theorem WF_move {f : Forest} (hwf : WF f) {p c : Nat} {pp cp : List Nat}
    (hp : lookupPath f p = some pp) (hc : lookupPath f c = some cp)
    (hlen : cp.length = 1) (hchk : (pp ++ [c]).head? ≠ cp.head?) :
    WF (moveRootUnder f cp pp c) := by
  have hcpc : cp = [c] := WF_root_path hwf hc hlen
  subst hcpc
  obtain ⟨hppne, hpplast, hppnd, hppcl⟩ := WF_node hwf hp
  have hpph : pp.head? ≠ some c := by
    intro hh
    apply hchk
    rw [List.head?_append_of_ne_nil _ hppne, hh]
    rfl
  constructor
  · rw [moveRootUnder, forestKeys_map]
    exact hwf.1
  · intro n' hn'
    rw [moveRootUnder] at hn'
    obtain ⟨n, hn, hne⟩ := List.mem_map.mp hn'
    subst hne
    obtain ⟨h1, h2, h3, h4⟩ := hwf.2 n hn
    rcases n with ⟨i, q⟩
    simp only at h1 h2 h3 h4 ⊢
    by_cases hqh : q.head? = some c
    · -- node of the moved subtree: new path pp ++ q
      rw [movePath_c_headed hqh]
      have hdisj : ∀ x ∈ pp, x ∉ q := by
        intro x hxp hxq
        obtain ⟨r1, hr1, hr1h⟩ := WF_elem hwf (lookupPath_mem hp) hxp
        obtain ⟨r2, hr2, hr2h⟩ := WF_elem hwf hn hxq
        rw [hr1] at hr2
        apply hpph
        rw [← hr1h, Option.some.inj hr2, hr2h, hqh]
      refine ⟨by simp [h1], ?_, ?_, ?_⟩
      · rw [List.getLast?_append_of_ne_nil _ h1]
        exact h2
      · rw [List.nodup_append]
        exact ⟨hppnd, h3, hdisj⟩
      · intro k hk
        rcases Nat.lt_or_ge k pp.length with hlt | hge
        · rw [List.getD_append _ _ _ _ hlt,
            List.take_append_of_le_length (by omega)]
          have hx := hppcl k hlt
          rw [moveRootUnder, lookupPath_map, hx]
          simp only [Option.map_some']
          rw [movePath_not_headed]
          rw [head?_take_succ]
          exact hpph
        · have hm : k - pp.length < q.length := by
            rw [List.length_append] at hk
            omega
          rw [List.getD_append_right _ _ _ _ hge]
          have hx := h4 (k - pp.length) hm
          rw [moveRootUnder, lookupPath_map, hx]
          simp only [Option.map_some']
          rw [movePath_c_headed (by rw [head?_take_succ]; exact hqh)]
          have hk1 : k + 1 = pp.length + (k - pp.length + 1) := by omega
          rw [hk1, List.take_append]
    · -- untouched node
      rw [movePath_not_headed hqh]
      refine ⟨h1, h2, h3, ?_⟩
      intro k hk
      have hx := h4 k hk
      rw [moveRootUnder, lookupPath_map, hx]
      simp only [Option.map_some']
      rw [movePath_not_headed]
      rw [head?_take_succ]
      exact hqh

theorem WF_addSubticket {f f' : Forest} (hwf : WF f) {p c : Nat}
    (h : addSubticket f p c = .ok f') : WF f' := by
  cases hp : lookupPath f p with
  | none => simp [addSubticket, hp] at h
  | some pp =>
    cases hc : lookupPath f c with
    | some cp =>
      by_cases hl : cp.length = 1
      · by_cases hk : (pp ++ [c]).head? = cp.head?
        · simp [addSubticket, hp, hc, hl, List.head?_append, hk,
            ← List.head?_append] at h
        · have hk2 : ¬pp.head?.or (some c) = cp.head? := by
            simpa [List.head?_append] using hk
          simp [addSubticket, hp, hc, hl, hk2] at h
          subst h
          exact WF_move hwf hp hc hl hk
      · simp [addSubticket, hp, hc, hl] at h
    | none =>
      simp [addSubticket, hp, hc] at h
      subst h
      obtain ⟨-, -, hppnd, hppcl⟩ := WF_node hwf hp
      apply WF_snoc hwf hc pp hppnd ?_ hppcl
      intro hcpp
      obtain ⟨r, hr, -⟩ := WF_elem hwf (lookupPath_mem hp) hcpp
      rw [hc] at hr
      simp at hr

theorem WF_applyTreeOp {f : Forest} (hwf : WF f) (op : TreeOp) :
    WF (applyTreeOp f op) := by
  cases op with
  | addRoot t =>
    cases ht : lookupPath f t with
    | none =>
      have hw := WF_snoc hwf ht [] List.nodup_nil (by simp)
        (by intro k hk; simp at hk)
      simpa [applyTreeOp, ht] using hw
    | some q => simpa [applyTreeOp, ht] using hwf
  | attach p c =>
    cases h : addSubticket f p c with
    | ok f2 => simpa [applyTreeOp, h] using WF_addSubticket hwf h
    | error e => simpa [applyTreeOp, h] using hwf

theorem WF_runTreeOps {f : Forest} (hwf : WF f) (ops : List TreeOp) :
    WF (runTreeOps f ops) := by
  induction ops generalizing f with
  | nil => exact hwf
  | cons op rest ih => exact ih (WF_applyTreeOp hwf op)

/-- C3: `_add_subticket(parent, child)` is the three-way case split the
spec states.  On a well-formed forest where the parent has a node with
path `pp`: a child whose node is a root (depth-1 path) is moved under the
parent — provided the parent is not inside the child's own subtree, the
guard surfaced separately as the cycle error — after which the parent is
among the child's ancestors; a child with a non-root node is rejected with
`alreadyAttached` ("ticket already part of a graph") and no new forest is
produced; a child with no node is inserted as a new last child of the
parent, with the parent among its ancestors. -/
theorem attach_as_subticket_cases (f : Forest) (p c : Nat) (pp : List Nat) (hwf : WF f)
    (hp : lookupPath f p = some pp) :
    (∀ cp, lookupPath f c = some cp → cp.length = 1 →
      (pp ++ [c]).head? ≠ cp.head? →
      addSubticket f p c = .ok (moveRootUnder f cp pp c) ∧
      p ∈ ancestorsOf (moveRootUnder f cp pp c) c) ∧
    (∀ cp, lookupPath f c = some cp → cp.length ≠ 1 →
      addSubticket f p c = .error .alreadyAttached) ∧
    (lookupPath f c = none →
      addSubticket f p c = .ok (f ++ [(c, pp ++ [c])]) ∧
      p ∈ ancestorsOf (f ++ [(c, pp ++ [c])]) c) := by
  obtain ⟨hppne, hpplast, -, -⟩ := WF_node hwf hp
  have hpmem : p ∈ pp := List.mem_of_mem_getLast? hpplast
  refine ⟨?_, ?_, ?_⟩
  · intro cp hcp hl hk
    have hk2 : ¬pp.head?.or (some c) = cp.head? := by
      simpa [List.head?_append] using hk
    constructor
    · simp [addSubticket, hp, hcp, hl, hk2]
    · have hcpc : cp = [c] := WF_root_path hwf hcp hl
      subst hcpc
      unfold ancestorsOf
      rw [moveRootUnder, lookupPath_map, hcp]
      simp only [Option.map_some']
      rw [movePath_c_headed (by simp)]
      simpa using hpmem
  · intro cp hcp hl
    simp [addSubticket, hp, hcp, hl]
  · intro hc
    refine ⟨by simp [addSubticket, hp, hc], ?_⟩
    unfold ancestorsOf
    rw [lookupPath_append_none _ hc]
    simp only [lookupPath, if_pos]
    simpa using hpmem

/-- Witness for C3: in the forest with roots 1 and 2 and the child 3 of
1, all three cases fire: ticket 2 (a root) moves under 1, ticket 3
(already a child) is rejected, and the nodeless ticket 9 is inserted. -/
theorem attach_as_subticket_cases_witness :
    (addSubticket [(1, [1]), (2, [2]), (3, [1, 3])] 1 2 =
        .ok (moveRootUnder [(1, [1]), (2, [2]), (3, [1, 3])] [2] [1] 2) ∧
      1 ∈ ancestorsOf (moveRootUnder [(1, [1]), (2, [2]), (3, [1, 3])] [2] [1] 2) 2) ∧
    addSubticket [(1, [1]), (2, [2]), (3, [1, 3])] 1 3 = .error .alreadyAttached ∧
    (addSubticket [(1, [1]), (2, [2]), (3, [1, 3])] 1 9 =
        .ok ([(1, [1]), (2, [2]), (3, [1, 3])] ++ [(9, [1] ++ [9])]) ∧
      1 ∈ ancestorsOf ([(1, [1]), (2, [2]), (3, [1, 3])] ++ [(9, [1] ++ [9])]) 9) :=
  ⟨(attach_as_subticket_cases [(1, [1]), (2, [2]), (3, [1, 3])] 1 2 [1] (by decide) rfl).1
      [2] rfl rfl (by decide),
   (attach_as_subticket_cases [(1, [1]), (2, [2]), (3, [1, 3])] 1 3 [1] (by decide) rfl).2.1
      [1, 3] rfl (by decide),
   (attach_as_subticket_cases [(1, [1]), (2, [2]), (3, [1, 3])] 1 9 [1] (by decide) rfl).2.2 rfl⟩

/-- C4 counterexample: two tickets in different teams (10 and 20), each a
tree root.  `_add_subticket` across them does not fail with any cross-team
error: it succeeds and moves ticket 2 under ticket 1, whose team differs,
and afterwards ticket 1 is an ancestor of ticket 2 — the tree is changed.
The claimed `CrossTeamViolation` rejection does not exist in the code. -/
theorem cross_team_attach_not_rejected :
    ((⟨1, 10⟩ : TicketLite).team ≠ (⟨2, 20⟩ : TicketLite).team) ∧
    addSubticketView [(1, [1]), (2, [2])] ⟨1, 10⟩ ⟨2, 20⟩ =
      .ok [(1, [1]), (2, [1, 2])] ∧
    ancestorsOf [(1, [1]), (2, [1, 2])] 2 = [1] := ⟨by decide, rfl, rfl⟩

/-- C4 amended: `_add_subticket` performs no same-team check at all — its
outcome is determined by the ticket ids and the tree alone, so any two
calls on tickets with the same ids but arbitrary (for example different)
teams return identical results; a cross-team attach behaves exactly like
the same-team attach instead of failing with `CrossTeamViolation`. -/
theorem add_subticket_ignores_teams (f : Forest) (pt ct pt2 ct2 : TicketLite)
    (hp : pt.id = pt2.id) (hc : ct.id = ct2.id) :
    addSubticketView f pt ct = addSubticketView f pt2 ct2 := by
  unfold addSubticketView
  rw [hp, hc]

/-- Witness for the amended C4: the result on tickets of teams 10 and 20
coincides with the result on the same tickets relabelled to teams 77
and 88. -/
theorem add_subticket_ignores_teams_witness :
    addSubticketView [(1, [1]), (2, [2])] ⟨1, 10⟩ ⟨2, 20⟩ =
      addSubticketView [(1, [1]), (2, [2])] ⟨1, 77⟩ ⟨2, 88⟩ :=
  add_subticket_ignores_teams _ _ _ _ _ rfl rfl

/-- C5: starting from any well-formed forest, after any sequence of the
views' tree mutations (root insertions and `_add_subticket` calls, failed
calls leaving the tree unchanged) no ticket is its own ancestor; and
attaching a root ticket A as a subticket of itself fails with treebeard's
cycle error `InvalidMoveToDescendant` (surfaced by the view as the 400
response "invalid tree operation") and leaves the tree unchanged. -/
theorem no_self_ancestor_invariant (f : Forest) (ops : List TreeOp) (hwf : WF f) :
    (∀ X, X ∉ ancestorsOf (runTreeOps f ops) X) ∧
    (∀ A, lookupPath f A = some [A] →
      addSubticket f A A = .error .invalidMoveToDescendant ∧
      applyTreeOp f (.attach A A) = f) := by
  constructor
  · intro X
    have hwf2 := WF_runTreeOps hwf ops
    unfold ancestorsOf
    cases hX : lookupPath (runTreeOps f ops) X with
    | none => simp
    | some q => exact WF_self_not_ancestor hwf2 hX
  · intro A hA
    constructor
    · simp [addSubticket, hA]
    · simp [applyTreeOp, addSubticket, hA]

/-- Witness for C5: a concrete well-formed forest, a concrete operation
sequence, and the self-attach of root ticket 1. -/
theorem no_self_ancestor_invariant_witness :
    1 ∉ ancestorsOf
        (runTreeOps [(1, [1]), (2, [1, 2])] [TreeOp.addRoot 5, TreeOp.attach 2 5]) 1 ∧
    addSubticket [(1, [1]), (2, [1, 2])] 1 1 = .error .invalidMoveToDescendant ∧
    applyTreeOp [(1, [1]), (2, [1, 2])] (.attach 1 1) = [(1, [1]), (2, [1, 2])] :=
  ⟨(no_self_ancestor_invariant [(1, [1]), (2, [1, 2])] [TreeOp.addRoot 5, TreeOp.attach 2 5]
      (by decide)).1 1,
   ((no_self_ancestor_invariant [(1, [1]), (2, [1, 2])] [] (by decide)).2 1 rfl).1,
   ((no_self_ancestor_invariant [(1, [1]), (2, [1, 2])] [] (by decide)).2 1 rfl).2⟩

/-- C1: the claim fails on the code.  `Ticket.save` runs
`team.ticket_head += 1; team.save()` as a read of the team row followed by
a separately observable write, not as one atomic update.  Interleaving two
concurrent `create` calls for the same fresh team as read-1, read-2,
write-1, write-2 makes both tickets receive `ticket_number` 1 (and the
counter ends at 1): duplicates are possible, which the spec itself flags
as the known counter race. -/
theorem ticket_number_race_duplicate :
    (raceRun [.read1, .read2, .write1, .write2] raceInit).num1 = some 1 ∧
    (raceRun [.read1, .read2, .write1, .write2] raceInit).num2 = some 1 ∧
    (raceRun [.read1, .read2, .write1, .write2] raceInit).head = 1 := by decide

/-- C2: the claim fails on the code.  `Ticket.save` unconditionally
re-increments `team.ticket_head` and reassigns `self.ticket_number` on
every save, so deactivating a ticket through the `delete` action (which
sets `deactivated` and calls `instance.save()`) changes its
`ticket_number` from 1 to 2 and pushes the team counter to 2, contradicting
"assigned at creation and immutable thereafter". -/
theorem ticket_number_reassigned_on_resave :
    ∃ db1 tA, ticketSave db0 sampleTicket = .ok (db1, tA) ∧
      tA.ticket_number = 1 ∧ db1.ticket_head = 1 ∧
      ∃ db2 tA2, deleteTicket db1 tA 99 = .ok (db2, tA2) ∧
        tA2.ticket_number = 2 ∧ db2.ticket_head = 2 ∧
        (db2.rows.map fun r => r.ticket_number) = [2] :=
  ⟨_, _, rfl, rfl, rfl, _, _, rfl, rfl, rfl, rfl⟩

/-- C7: `retrieve_by_user` returns exactly the rows of the team whose
`deactivated` is null and whose owner or assigned user is the given user:
membership in the result is equivalent to that conjunction, so deactivated
rows and rows where the user is neither owner nor assignee never appear. -/
theorem retrieve_by_user_spec (rows : List TicketObj) (user team : Nat)
    (t : TicketObj) :
    t ∈ retrieve_by_user rows user team ↔
      t ∈ rows ∧ t.team = some team ∧ t.deactivated = none ∧
        (t.owner = some user ∨ t.assigned_user = some user) := by
  simp [retrieve_by_user, List.mem_filter, and_assoc]

/-- C8: every successful `Ticket.save` increments the team's
`ticket_head` by exactly one and assigns the incremented value as the
ticket's `ticket_number`; in particular, in a fresh team (counter 0) the
first ticket saved gets number 1 and, with the counter then at 1, the
second gets number 2. -/
theorem ticket_numbers_sequential (db : DBState) (t : TicketObj)
    (db' : DBState) (t' : TicketObj)
    (h : ticketSave db t = .ok (db', t')) :
    t'.ticket_number = db.ticket_head + 1 ∧
    db'.ticket_head = db.ticket_head + 1 ∧
    (db.ticket_head = 0 → t'.ticket_number = 1) ∧
    (db.ticket_head = 1 → t'.ticket_number = 2) := by
  have key : t'.ticket_number = db.ticket_head + 1 ∧
      db'.ticket_head = db.ticket_head + 1 := by
    cases ho : t.owner <;> cases ht : t.team <;>
      simp [ticketSave, ho, ht] at h
    cases hp : t.pk <;> simp [hp] at h <;>
      rcases h with ⟨h1, h2⟩ <;> subst h1 <;> simp [← h2]
  exact ⟨key.1, key.2, fun h0 => by simp [key.1, h0],
    fun h1 => by simp [key.1, h1]⟩

/-- Witness for C8: saving `sampleTicket` into the fresh `db0` yields
ticket number 1 = 0 + 1. -/
theorem ticket_numbers_sequential_witness :
    sampleSaved.ticket_number = db0.ticket_head + 1 ∧
    dbAfterFirst.ticket_head = db0.ticket_head + 1 ∧
    (db0.ticket_head = 0 → sampleSaved.ticket_number = 1) ∧
    (db0.ticket_head = 1 → sampleSaved.ticket_number = 2) :=
  ticket_numbers_sequential db0 sampleTicket dbAfterFirst sampleSaved rfl

/-- C9: saving a ticket with a null owner or a null team raises the
validation error before anything is written: the save returns an error and
the observed database state (counter, pk sequence and rows alike) is
exactly the prior state. -/
theorem save_validation_no_partial_state (db : DBState) (t : TicketObj)
    (h : t.owner = none ∨ t.team = none) :
    (∃ e, ticketSave db t = .error e) ∧ runTicketSave db t = db := by
  rcases h with h | h
  · exact ⟨⟨.missingOwner, by simp [ticketSave, h]⟩,
      by simp [runTicketSave, ticketSave, h]⟩
  · cases ho : t.owner
    · exact ⟨⟨.missingOwner, by simp [ticketSave, ho]⟩,
        by simp [runTicketSave, ticketSave, ho]⟩
    · exact ⟨⟨.missingTeam, by simp [ticketSave, ho, h]⟩,
        by simp [runTicketSave, ticketSave, ho, h]⟩

/-- Witness for C9: saving the ownerless ticket into `db0` errors and
leaves `db0` unchanged. -/
theorem save_validation_no_partial_state_witness :
    (∃ e, ticketSave db0 ownerlessTicket = .error e) ∧
    runTicketSave db0 ownerlessTicket = db0 :=
  save_validation_no_partial_state db0 ownerlessTicket (Or.inl rfl)

/-- C10: the stored ticket number never depends on a client-supplied
`ticket_number`.  Two create requests differing only in that field produce
identical results (the serializer's `ReadOnlyField` keeps it out of
`validated_data`), and independently `Ticket.save` gives the same result
whatever `ticket_number` the in-memory object carries (save overwrites
it). -/
theorem ticket_number_client_independent (db : DBState) (owner team : Nat)
    (r : ClientRequest) (n n' : Option Nat) (t : TicketObj) (k : Nat) :
    createRecord db owner team { r with ticket_number := n } =
      createRecord db owner team { r with ticket_number := n' } ∧
    ticketSave db { t with ticket_number := k } = ticketSave db t := by
  constructor
  · rfl
  · cases t
    rfl

/-- C6: reconciling a ticket's tags to the set A, B and then to the set
B, C leaves exactly the tags B, C attached, and the association row for
B — the tag that stays — is the very row created by the first call, with
its original `created` timestamp, present unchanged after the second call
(set-difference semantics, not delete-all-then-reinsert). -/
theorem reconcile_set_difference (A B C t τ1 τ2 : Nat)
    (hAB : A ≠ B) (hAC : A ≠ C) (hBC : B ≠ C) :
    attachedTags (delete_difference (delete_difference [] t [A, B] τ1) t [B, C] τ2) t = [B, C] ∧
    (⟨t, B, τ1⟩ : TicketTagRec) ∈ delete_difference [] t [A, B] τ1 ∧
    (⟨t, B, τ1⟩ : TicketTagRec) ∈
      delete_difference (delete_difference [] t [A, B] τ1) t [B, C] τ2 := by
  simp [delete_difference, attachedTags, List.contains, hAB, hAC, hBC,
    Ne.symm hAB, Ne.symm hAC, Ne.symm hBC]

/-- Witness for C6: tags 1, 2, 3 on ticket 7 with timestamps 10 and 20. -/
theorem reconcile_set_difference_witness :
    attachedTags (delete_difference (delete_difference [] 7 [1, 2] 10) 7 [2, 3] 20) 7 = [2, 3] ∧
    (⟨7, 2, 10⟩ : TicketTagRec) ∈ delete_difference [] 7 [1, 2] 10 ∧
    (⟨7, 2, 10⟩ : TicketTagRec) ∈
      delete_difference (delete_difference [] 7 [1, 2] 10) 7 [2, 3] 20 :=
  reconcile_set_difference 1 2 3 7 10 20 (by decide) (by decide) (by decide)

end Sluggo
